import Mathlib

set_option maxRecDepth 4096

/-
Verification of the form-submission mail endpoint
(src/app/api/submit-mail/route.ts) against its natural-language
specification.

The TypeScript handler receives an arbitrary parsed JSON value, validates
it, formats an email, and relays it over SMTP.  We shallowly embed the
handler: JSON/JavaScript runtime values become the inductive type JSVal,
JavaScript truthiness, typeof, property access, String.prototype.trim and
the email regular expression are modelled explicitly, and the POST handler
becomes a pure function from the parsed body and the outcome of the single
relay call to an HTTP response together with the list of relay invocations
it performed.  JSON numbers are modelled as integers; no claim depends on
non-integral numeric values.
-/

/-- A JavaScript runtime value as produced by JSON.parse, extended with
undefined (the result of reading an absent property).  Object fields are
modelled as an association list with distinct keys. -/
inductive JSVal where
  | undefined : JSVal
  | null : JSVal
  | bool (b : Bool) : JSVal
  | num (n : Int) : JSVal
  | str (s : String) : JSVal
  | arr (elems : List JSVal) : JSVal
  | obj (fields : List (String × JSVal)) : JSVal

/-- JavaScript truthiness of a value: the semantics of using the value in
an if condition or behind the ! operator. -/
def truthy : JSVal → Bool
  | .undefined => false
  | .null => false
  | .bool b => b
  | .num n => n != 0
  | .str s => s != ""
  | .arr _ => true
  | .obj _ => true

/-- The result of the JavaScript typeof operator.  Note that typeof null
and typeof of an array are both the string "object". -/
def typeofStr : JSVal → String
  | .undefined => "undefined"
  | .null => "object"
  | .bool _ => "boolean"
  | .num _ => "number"
  | .str _ => "string"
  | .arr _ => "object"
  | .obj _ => "object"

/-- Property access v[key]: on an object, the value stored under the key
(undefined when absent); on every other JSON value the named properties
read by the handler (formType, name, email, phone, message, product,
mobile) are absent, so the access yields undefined. -/
def getProp (v : JSVal) (key : String) : JSVal :=
  match v with
  | .obj fields => (fields.lookup key).getD .undefined
  | _ => .undefined

/-- The characters treated as whitespace by JavaScript (the WhiteSpace and
LineTerminator productions of ECMAScript, as used by the regex class
backslash-s and by String.prototype.trim). -/
def jsWhitespaceChars : List Char :=
  ['\t', '\n', '\x0B', '\x0C', '\r', ' ',
   '\u00A0', '\u1680', '\u2000', '\u2001', '\u2002', '\u2003', '\u2004',
   '\u2005', '\u2006', '\u2007', '\u2008', '\u2009', '\u200A',
   '\u2028', '\u2029', '\u202F', '\u205F', '\u3000', '\uFEFF']

/-- Whether a character is JavaScript whitespace. -/
def isJsWhitespace (c : Char) : Bool := jsWhitespaceChars.contains c

/-- String.prototype.trim: remove leading and trailing JavaScript
whitespace. -/
def jsTrim (s : String) : String :=
  ⟨((s.data.dropWhile isJsWhitespace).reverse.dropWhile isJsWhitespace).reverse⟩

/-- A character admitted by the regex character class excluding whitespace
and the at sign, written [^\s@] in the source. -/
def okChar (c : Char) : Bool := !isJsWhitespace c && !(c == '@')

/-- All ways of splitting a list into a prefix and the remaining suffix. -/
def splits (l : List Char) : List (List Char × List Char) :=
  (List.range (l.length + 1)).map fun k => (l.take k, l.drop k)

/-- Embeds isValidEmail from the source: the test of the regular
expression anchored pattern [^\s@]+ @ [^\s@]+ \. [^\s@]+ against the
string.  A regex test succeeds exactly when some decomposition of the
string matches the pattern, which is what this function searches for over
all splits. -/
def isValidEmail (email : String) : Bool :=
  (splits email.data).any fun p =>
    match p.2 with
    | '@' :: rest =>
        !p.1.isEmpty && p.1.all okChar &&
        ((splits rest).any fun q =>
          match q.2 with
          | '.' :: c => !q.1.isEmpty && q.1.all okChar && !c.isEmpty && c.all okChar
          | _ => false)
    | _ => false

/-- The strict equality test v === s against a string literal, as used by
the handler on the formType discriminator. -/
def strictEqStr (v : JSVal) (s : String) : Bool :=
  match v with
  | .str t => t == s
  | _ => false

/-- Array.prototype.includes on an array of string literals applied to an
arbitrary runtime value: true exactly when the value is one of the listed
strings (includes compares with SameValueZero, which on mixed types never
identifies a non-string with a string). -/
def jsIncludesStr (l : List String) (v : JSVal) : Bool :=
  match v with
  | .str s => l.contains s
  | _ => false

/-- The string content of a value known to be a string; placeholder for
other values (only ever reached behind a typeof guard in the handler). -/
def jsAsString : JSVal → String
  | .str s => s
  | _ => ""

/-- The compound failure condition !v || typeof v !== string ||
v.trim() === '' that the validator applies to name, phone, message and
product. -/
def requiredStringMissing (v : JSVal) : Bool :=
  !truthy v || !(typeofStr v == "string") || (jsTrim (jsAsString v) == "")

/-- Valid product types for the quote form. -/
def VALID_PRODUCTS : List String := ["ARCHITECT", "LANDMARK", "SPOTLIGHT", "FUNDAMENTALS"]

/-- The validation result record returned by validateFormData. -/
structure ValidationResult where
  valid : Bool
  error : Option String
deriving DecidableEq, Repr

/-- validateFormData from the source.  The two nested blocks of the
original (the contact or support block containing the phone and message
checks, and the quote block containing the two product checks) are
linearised into guarded clauses of a single if chain, which preserves the
original control flow exactly: inside each block a failing check returns
immediately and a passing check falls through to the next one. -/
def validateFormData (data : JSVal) : ValidationResult :=
  if !truthy data || !(typeofStr data == "object") then
    { valid := false, error := some "Invalid request data" }
  else if !truthy (getProp data "formType") then
    { valid := false, error := some "formType is required" }
  else if !(jsIncludesStr ["contact", "support", "quote"] (getProp data "formType")) then
    { valid := false, error := some "Invalid formType. Must be contact, support, or quote" }
  else if requiredStringMissing (getProp data "name") then
    { valid := false, error := some "name is required" }
  else if !truthy (getProp data "email") || !(typeofStr (getProp data "email") == "string")
      || !isValidEmail (jsAsString (getProp data "email")) then
    { valid := false, error := some "Valid email is required" }
  else if (strictEqStr (getProp data "formType") "contact"
        || strictEqStr (getProp data "formType") "support")
      && requiredStringMissing (getProp data "phone") then
    { valid := false, error := some "phone is required for contact and support forms" }
  else if (strictEqStr (getProp data "formType") "contact"
        || strictEqStr (getProp data "formType") "support")
      && requiredStringMissing (getProp data "message") then
    { valid := false, error := some "message is required for contact and support forms" }
  else if strictEqStr (getProp data "formType") "quote"
      && requiredStringMissing (getProp data "product") then
    { valid := false, error := some "product is required for quote form" }
  else if strictEqStr (getProp data "formType") "quote"
      && !(jsIncludesStr VALID_PRODUCTS (getProp data "product")) then
    { valid := false, error := some ("product must be one of: " ++ String.intercalate ", " VALID_PRODUCTS) }
  else
    { valid := true, error := none }

mutual

/-- The JavaScript string coercion applied by template literal
interpolation.  Strings are themselves, numbers print in decimal, arrays
join their elements with commas (null and undefined elements joining as
the empty string), plain objects print as [object Object]. -/
def jsToString : JSVal → String
  | .undefined => "undefined"
  | .null => "null"
  | .bool b => if b then "true" else "false"
  | .num n => toString n
  | .str s => s
  | .arr xs => String.intercalate "," (jsToStringElems xs)
  | .obj _ => "[object Object]"

/-- Element-wise coercion used by Array.prototype.join. -/
def jsToStringElems : List JSVal → List String
  | [] => []
  | .undefined :: rest => "" :: jsToStringElems rest
  | .null :: rest => "" :: jsToStringElems rest
  | v :: rest => jsToString v :: jsToStringElems rest

end

/-- Embeds message.replace with the global single-character pattern
newline and the replacement string with angle-bracket br, as applied to
the message field in the HTML templates. -/
def replaceNewlinesWithBr (s : String) : String :=
  ⟨go s.data⟩
where
  /-- character-wise replacement of each newline by the four characters
  of the br tag -/
  go : List Char → List Char
  | [] => []
  | c :: cs => if c = '\n' then '<' :: 'b' :: 'r' :: '>' :: go cs else c :: go cs

/-- The record returned by formatEmailContent. -/
structure EmailContent where
  subject : String
  html : String
  text : String
deriving DecidableEq, Repr

/-- formatEmailContent from the source.  The template literals are spelled
out as explicit concatenations; all literal segments, including the
indentation and trailing whitespace of the backtick templates, are
reproduced byte for byte.  The function dispatches on formType exactly as
the source does and returns empty strings for any other value (the final
implicit fallthrough of the if chain). -/
def formatEmailContent (data : JSVal) : EmailContent :=
  if strictEqStr (getProp data "formType") "contact" then
    { subject := "New Contact Form Submission - " ++ jsToString (getProp data "name")
      html := "\n      <h2>New Contact Form Submission</h2>\n      <p><strong>Name:</strong> "
        ++ jsToString (getProp data "name")
        ++ "</p>\n      <p><strong>Email:</strong> "
        ++ jsToString (getProp data "email")
        ++ "</p>\n      <p><strong>Phone:</strong> "
        ++ jsToString (getProp data "phone")
        ++ "</p>\n      <p><strong>Message:</strong></p>\n      <p>"
        ++ replaceNewlinesWithBr (jsToString (getProp data "message"))
        ++ "</p>\n    "
      text := "\nNew Contact Form Submission\n\nName: "
        ++ jsToString (getProp data "name")
        ++ "\nEmail: " ++ jsToString (getProp data "email")
        ++ "\nPhone: " ++ jsToString (getProp data "phone")
        ++ "\nMessage: " ++ jsToString (getProp data "message")
        ++ "\n    " }
  else if strictEqStr (getProp data "formType") "support" then
    { subject := "New Support Request - " ++ jsToString (getProp data "name")
      html := "\n      <h2>New Support Request</h2>\n      <p><strong>Name:</strong> "
        ++ jsToString (getProp data "name")
        ++ "</p>\n      <p><strong>Email:</strong> "
        ++ jsToString (getProp data "email")
        ++ "</p>\n      <p><strong>Phone:</strong> "
        ++ jsToString (getProp data "phone")
        ++ "</p>\n      <p><strong>Message:</strong></p>\n      <p>"
        ++ replaceNewlinesWithBr (jsToString (getProp data "message"))
        ++ "</p>\n    "
      text := "\nNew Support Request\n\nName: "
        ++ jsToString (getProp data "name")
        ++ "\nEmail: " ++ jsToString (getProp data "email")
        ++ "\nPhone: " ++ jsToString (getProp data "phone")
        ++ "\nMessage: " ++ jsToString (getProp data "message")
        ++ "\n    " }
  else if strictEqStr (getProp data "formType") "quote" then
    { subject := "New Quote Request - " ++ jsToString (getProp data "name")
        ++ " - " ++ jsToString (getProp data "product")
      html := "\n      <h2>New Quote Request</h2>\n      <p><strong>Name:</strong> "
        ++ jsToString (getProp data "name")
        ++ "</p>\n      <p><strong>Email:</strong> "
        ++ jsToString (getProp data "email")
        ++ "</p>\n      "
        ++ (if truthy (getProp data "mobile") then
              "<p><strong>Mobile:</strong> " ++ jsToString (getProp data "mobile") ++ "</p>"
            else "")
        ++ "\n      <p><strong>Product:</strong> "
        ++ jsToString (getProp data "product")
        ++ "</p>\n    "
      text := "\nNew Quote Request\n\nName: "
        ++ jsToString (getProp data "name")
        ++ "\nEmail: " ++ jsToString (getProp data "email")
        ++ "\n"
        ++ (if truthy (getProp data "mobile") then
              "Mobile: " ++ jsToString (getProp data "mobile") ++ "\n"
            else "")
        ++ "Product: " ++ jsToString (getProp data "product")
        ++ "\n    " }
  else
    { subject := "", html := "", text := "" }

/-- getCorsHeaders from the source.  The request origin header is an
Option (the header may be absent, which JavaScript sees as null) and the
production flag models the NODE_ENV comparison with the string
production. -/
def getCorsHeaders (origin : Option String) (isProduction : Bool) : List (String × String) :=
  let allowedOrigins : List String :=
    ["http://localhost:3000", "https://caduae.com", "https://www.caduae.com"]
  let allowedOrigin : String :=
    match origin with
    | some o =>
        if o != "" && allowedOrigins.contains o then o
        else if isProduction then "https://caduae.com" else "*"
    | none => if isProduction then "https://caduae.com" else "*"
  [("Access-Control-Allow-Origin", allowedOrigin),
   ("Access-Control-Allow-Methods", "POST, OPTIONS"),
   ("Access-Control-Allow-Headers", "Content-Type"),
   ("Access-Control-Max-Age", "86400")]

/-- A JavaScript exception value as seen by the catch block: either an
Error instance carrying its message string, or any other thrown value. -/
inductive JsException where
  | errorInstance (message : String) : JsException
  | otherValue (v : JSVal) : JsException

/-- The expression error instanceof Error selecting error.message, with
the generic fallback string for non-Error values, from the catch block of
the POST handler. -/
def jsErrorMessage : JsException → String
  | .errorInstance m => m
  | .otherValue _ =>
      "An error occurred while sending your message. Please try again later."

/-- The JavaScript expression v or-else dflt on an optional string
(undefined and the empty string are falsy and select the default). -/
def jsOrString (v : Option String) (dflt : String) : String :=
  match v with
  | some s => if s == "" then dflt else s
  | none => dflt

/-- The argument record of one transporter.sendMail invocation. -/
structure SendMailArgs where
  fromAddr : String
  toAddr : String
  subject : String
  html : String
  text : String
  replyTo : JSVal

/-- The sendMail argument record the handler builds for a validated
body: fixed sender and recipient, the formatted content, and replyTo set
to the submitted email value. -/
def sendMailArgsFor (body : JSVal) : SendMailArgs :=
  { fromAddr := "noreply@caduae.com"
    toAddr := "info@caduae.com"
    subject := (formatEmailContent body).subject
    html := (formatEmailContent body).html
    text := (formatEmailContent body).text
    replyTo := getProp body "email" }

/-- The JSON body of every response: a status tag and a message. -/
structure ResponseBody where
  status : String
  message : String
deriving DecidableEq, Repr

/-- An HTTP response as produced by NextResponse.json: numeric status
code, JSON body, response headers. -/
structure HttpResponse where
  status : Nat
  body : ResponseBody
  headers : List (String × String)

/-- The POST handler.  Its interaction with the outside world is made
explicit: parsedBody is the outcome of awaiting request.json (an
exception there lands in the same catch block as a relay failure), and
relayResult is the outcome of the single awaited transporter.sendMail
call.  The returned list records every sendMail invocation the handler
performed, in order, so that statements about the relay being called
exactly once or not at all are expressible.  A success response exists
only on the relay-success branch, after the awaited call. -/
def POST (origin : Option String) (isProduction : Bool)
    (parsedBody : Except JsException JSVal)
    (relayResult : Except JsException Unit) :
    HttpResponse × List SendMailArgs :=
  let corsHeaders := getCorsHeaders origin isProduction
  match parsedBody with
  | .error err =>
      ({ status := 500
         body := { status := "error", message := jsErrorMessage err }
         headers := corsHeaders }, [])
  | .ok body =>
      let validation := validateFormData body
      if !validation.valid then
        ({ status := 400
           body := { status := "error"
                     message := jsOrString validation.error "Validation failed" }
           headers := corsHeaders }, [])
      else
        match relayResult with
        | .ok _ =>
            ({ status := 200
               body := { status := "success"
                         message := "Thank you! Your message has been sent successfully." }
               headers := corsHeaders }, [sendMailArgsFor body])
        | .error err =>
            ({ status := 500
               body := { status := "error", message := jsErrorMessage err }
               headers := corsHeaders }, [sendMailArgsFor body])

/-- Returns the error of the first rule in the list whose check is false,
or a valid result when every rule passes. -/
def firstError : List (Bool × String) → ValidationResult
  | [] => { valid := true, error := none }
  | (ok, err) :: rest =>
      if ok then firstError rest else { valid := false, error := some err }

/-- The ordered validation rules as the specification states them: a rule
is a passing condition paired with the error reported when it fails.  The
fixed prefix checks non-null object, formType present, formType in the
enumeration, non-blank name, and pattern-matching email; it is followed by
the phone and message rules exactly when the formType is contact or
support, and by the two product rules exactly when the formType is
quote. -/
def orderedRules (data : JSVal) : List (Bool × String) :=
  [(truthy data && typeofStr data == "object", "Invalid request data"),
   (truthy (getProp data "formType"), "formType is required"),
   (jsIncludesStr ["contact", "support", "quote"] (getProp data "formType"),
     "Invalid formType. Must be contact, support, or quote"),
   (!requiredStringMissing (getProp data "name"), "name is required"),
   (truthy (getProp data "email") && typeofStr (getProp data "email") == "string"
      && isValidEmail (jsAsString (getProp data "email")), "Valid email is required")]
  ++ (if strictEqStr (getProp data "formType") "contact"
        || strictEqStr (getProp data "formType") "support" then
       [(!requiredStringMissing (getProp data "phone"),
          "phone is required for contact and support forms"),
        (!requiredStringMissing (getProp data "message"),
          "message is required for contact and support forms")]
      else [])
  ++ (if strictEqStr (getProp data "formType") "quote" then
       [(!requiredStringMissing (getProp data "product"),
          "product is required for quote form"),
        (jsIncludesStr VALID_PRODUCTS (getProp data "product"),
          "product must be one of: " ++ String.intercalate ", " VALID_PRODUCTS)]
      else [])

/-- The email pattern as the specification words it: one or more
characters that are neither whitespace nor the at sign, then the at sign,
then one or more such characters, then a dot, then one or more such
characters, making up the whole string. -/
def emailPatternSpec (s : String) : Prop :=
  ∃ a b c : List Char,
    s.data = a ++ '@' :: (b ++ '.' :: c) ∧
    a ≠ [] ∧ b ≠ [] ∧ c ≠ [] ∧
    (∀ ch ∈ a, okChar ch = true) ∧
    (∀ ch ∈ b, okChar ch = true) ∧
    (∀ ch ∈ c, okChar ch = true)

/-- The CORS header computation as the specification words it: when the
origin is present and in the fixed allow-list it is echoed back; otherwise
the canonical production origin is used in production mode and the
wildcard outside it; the three fixed method, header and max-age entries
are always attached. -/
def specCorsHeaders (origin : Option String) (isProduction : Bool) : List (String × String) :=
  let echoed : String :=
    match origin with
    | some o =>
        if o ∈ ["http://localhost:3000", "https://caduae.com", "https://www.caduae.com"] then o
        else if isProduction then "https://caduae.com" else "*"
    | none => if isProduction then "https://caduae.com" else "*"
  [("Access-Control-Allow-Origin", echoed),
   ("Access-Control-Allow-Methods", "POST, OPTIONS"),
   ("Access-Control-Allow-Headers", "Content-Type"),
   ("Access-Control-Max-Age", "86400")]

/-- Removes a property from an object value, leaving every other value
unchanged: the payload as it would have been had the field been absent. -/
def delProp (v : JSVal) (key : String) : JSVal :=
  match v with
  | .obj fields => .obj (fields.filter fun p => p.1 != key)
  | other => other

/-- Splits a character list into its newline-separated lines.  The result
is always nonempty and a trailing newline yields a final empty line. -/
def splitLines : List Char → List (List Char)
  | [] => [[]]
  | c :: cs =>
      let r := splitLines cs
      if c = '\n' then [] :: r
      else (c :: r.headD []) :: r.tail

/-- Whether some newline-separated line of the string starts with the
given prefix. -/
def hasLineStartingWith (p s : String) : Bool :=
  (splitLines s.data).any fun l => p.data.isPrefixOf l

/-- Whether the needle occurs contiguously inside the haystack. -/
def containsSubstring (needle hay : String) : Bool :=
  (splits hay.data).any fun q => needle.data.isPrefixOf q.2

/-- The valid contact submission used by the specification example:
Jane, with a two-line message. -/
def contactJane : JSVal :=
  .obj [("formType", .str "contact"), ("name", .str "Jane"),
        ("email", .str "jane@x.com"), ("phone", .str "123"),
        ("message", .str "Hi\nThere")]

/-- A valid quote submission with no mobile field whose name embeds a
line that starts with the Mobile label. -/
def quoteNameInjection : JSVal :=
  .obj [("formType", .str "quote"), ("name", .str "A\nMobile: 99"),
        ("email", .str "a@b.c"), ("product", .str "ARCHITECT")]

/-- A valid quote submission whose mobile field is present but holds the
empty string. -/
def quoteEmptyMobile : JSVal :=
  .obj [("formType", .str "quote"), ("name", .str "A"),
        ("email", .str "a@b.c"), ("product", .str "ARCHITECT"),
        ("mobile", .str "")]

/-- A valid quote submission with no mobile field and a plain name. -/
def quotePlain : JSVal :=
  .obj [("formType", .str "quote"), ("name", .str "A"),
        ("email", .str "a@b.c"), ("product", .str "LANDMARK")]

/-- A valid quote submission whose mobile field is a non-empty string. -/
def quoteWithMobile : JSVal :=
  .obj [("formType", .str "quote"), ("name", .str "A"),
        ("email", .str "a@b.c"), ("product", .str "SPOTLIGHT"),
        ("mobile", .str "0501234567")]

/-- A second valid quote submission with empty mobile, used to exercise
the empty-mobile theorem. -/
def quoteEmptyMobileB : JSVal :=
  .obj [("formType", .str "quote"), ("name", .str "B"),
        ("email", .str "b@b.c"), ("product", .str "FUNDAMENTALS"),
        ("mobile", .str "")]

/-- A payload with no formType, used to exercise the validation-error
response theorem. -/
def emptyObjectPayload : JSVal := .obj []

/-! Helper lemmas about splits, line splitting and prefixes. -/

theorem splits_any_iff (l : List Char) (f : List Char × List Char → Bool) :
    (splits l).any f = true ↔ ∃ a b, l = a ++ b ∧ f (a, b) = true := by
  constructor
  · intro h
    rw [List.any_eq_true] at h
    obtain ⟨p, hp, hf⟩ := h
    rw [splits, List.mem_map] at hp
    obtain ⟨k, _, rfl⟩ := hp
    exact ⟨l.take k, l.drop k, (List.take_append_drop k l).symm, hf⟩
  · rintro ⟨a, b, rfl, hf⟩
    rw [List.any_eq_true]
    refine ⟨(a, b), ?_, hf⟩
    rw [splits, List.mem_map]
    refine ⟨a.length, ?_, ?_⟩
    · rw [List.mem_range, List.length_append]
      omega
    · rw [List.take_left, List.drop_left]

theorem isPrefixOf_append_self (p w : List Char) : p.isPrefixOf (p ++ w) = true := by
  rw [List.isPrefixOf_iff_prefix]
  exact ⟨w, rfl⟩

theorem isValidEmail_iff (s : String) : isValidEmail s = true ↔ emailPatternSpec s := by
  rw [isValidEmail, splits_any_iff]
  constructor
  · rintro ⟨a, rest0, hab, hf⟩
    split at hf
    case _ rest heq =>
      subst heq
      simp only [Bool.and_eq_true] at hf
      obtain ⟨⟨ha1, ha2⟩, hinner⟩ := hf
      rw [splits_any_iff] at hinner
      obtain ⟨b, rest1, hrest, hg⟩ := hinner
      split at hg
      case _ c heq2 =>
        subst heq2
        simp only [Bool.and_eq_true] at hg
        refine ⟨a, b, c, ?_, ?_, ?_, ?_, ?_, ?_, ?_⟩
        · rw [hab, hrest]
        · intro h0; rw [h0] at ha1; exact absurd ha1 (by decide)
        · intro h0; rw [h0] at hg; exact absurd hg.1.1.1 (by decide)
        · intro h0; rw [h0] at hg; exact absurd hg.1.2 (by decide)
        · intro ch hch
          exact (List.all_eq_true.mp ha2) ch hch
        · intro ch hch
          exact (List.all_eq_true.mp hg.1.1.2) ch hch
        · intro ch hch
          exact (List.all_eq_true.mp hg.2) ch hch
      case _ h1 =>
        exact absurd hg (by simp)
    case _ h1 =>
      exact absurd hf (by simp)
  · rintro ⟨a, b, c, hdata, ha, hb, hc, hA, hB, hC⟩
    refine ⟨a, '@' :: (b ++ '.' :: c), hdata, ?_⟩
    show (!a.isEmpty && a.all okChar &&
      ((splits (b ++ '.' :: c)).any fun q =>
        match q.2 with
        | '.' :: c => !q.1.isEmpty && q.1.all okChar && !c.isEmpty && c.all okChar
        | _ => false)) = true
    have h1 : a.isEmpty = false := by
      cases a with
      | nil => exact absurd rfl ha
      | cons x xs => rfl
    have h2 : a.all okChar = true := List.all_eq_true.mpr hA
    have hin : ((splits (b ++ '.' :: c)).any fun q =>
        match q.2 with
        | '.' :: c => !q.1.isEmpty && q.1.all okChar && !c.isEmpty && c.all okChar
        | _ => false) = true := by
      rw [splits_any_iff]
      refine ⟨b, '.' :: c, rfl, ?_⟩
      show (!b.isEmpty && b.all okChar && !c.isEmpty && c.all okChar) = true
      have hb1 : b.isEmpty = false := by
        cases b with
        | nil => exact absurd rfl hb
        | cons x xs => rfl
      have hc1 : c.isEmpty = false := by
        cases c with
        | nil => exact absurd rfl hc
        | cons x xs => rfl
      rw [hb1, hc1, List.all_eq_true.mpr hB, List.all_eq_true.mpr hC]
      rfl
    rw [h1, h2, hin]
    rfl

theorem okChar_ne_newline (ch : Char) (h : okChar ch = true) : ch ≠ '\n' := by
  intro h0
  rw [h0] at h
  exact absurd h (by decide)

theorem email_no_newline (s : String) (h : isValidEmail s = true) :
    ∀ ch ∈ s.data, ch ≠ '\n' := by
  obtain ⟨a, b, c, hdata, _, _, _, hA, hB, hC⟩ := (isValidEmail_iff s).mp h
  intro ch hch
  rw [hdata] at hch
  rcases List.mem_append.mp hch with h1 | h1
  · exact okChar_ne_newline ch (hA ch h1)
  · rcases h1 with _ | ⟨_, h2⟩
    · decide
    · rcases List.mem_append.mp h2 with h3 | h3
      · exact okChar_ne_newline ch (hB ch h3)
      · rcases h3 with _ | ⟨_, h4⟩
        · decide
        · exact okChar_ne_newline ch (hC ch h4)

theorem splitLines_ne_nil (l : List Char) : splitLines l ≠ [] := by
  cases l with
  | nil => simp [splitLines]
  | cons c cs =>
      rw [splitLines]
      split <;> simp

theorem splitLines_cons_newline (cs : List Char) :
    splitLines ('\n' :: cs) = [] :: splitLines cs := by
  rw [splitLines]
  simp

theorem splitLines_cons_other (c : Char) (cs : List Char) (h : c ≠ '\n') :
    splitLines (c :: cs) = (c :: (splitLines cs).headD []) :: (splitLines cs).tail := by
  rw [splitLines]
  simp [h]

theorem splitLines_append_no_newline (a cs : List Char) (h : ∀ c ∈ a, c ≠ '\n') :
    splitLines (a ++ cs) = (a ++ (splitLines cs).headD []) :: (splitLines cs).tail := by
  induction a with
  | nil =>
      rcases hne : splitLines cs with _ | ⟨x, xs⟩
      · exact absurd hne (splitLines_ne_nil cs)
      · simp [hne]
  | cons c rest ih =>
      have hc : c ≠ '\n' := h c (List.mem_cons_self c rest)
      have hrest : ∀ x ∈ rest, x ≠ '\n' := fun x hx => h x (List.mem_cons_of_mem c hx)
      rw [List.cons_append, splitLines_cons_other c (rest ++ cs) hc, ih hrest]
      simp

theorem splitLines_no_newline (a : List Char) (h : ∀ c ∈ a, c ≠ '\n') :
    splitLines a = [a] := by
  have := splitLines_append_no_newline a [] h
  simpa [splitLines] using this

theorem splitLines_append_newline (a z : List Char) :
    splitLines (a ++ '\n' :: z) = splitLines a ++ splitLines z := by
  induction a with
  | nil => simp [splitLines_cons_newline, splitLines]
  | cons c rest ih =>
      by_cases hc : c = '\n'
      · subst hc
        rw [List.cons_append, splitLines_cons_newline, splitLines_cons_newline, ih]
        rfl
      · rw [List.cons_append, splitLines_cons_other c (rest ++ '\n' :: z) hc, ih,
            splitLines_cons_other c rest hc]
        rcases hne : splitLines rest with _ | ⟨x, xs⟩
        · exact absurd hne (splitLines_ne_nil rest)
        · simp

theorem splitLines_seg (a z : List Char) (h : ∀ c ∈ a, c ≠ '\n') :
    splitLines (a ++ '\n' :: z) = a :: splitLines z := by
  rw [splitLines_append_newline, splitLines_no_newline a h]
  rfl

theorem anyLine_of_split (p x y : List Char) (hp : ∀ c ∈ p, c ≠ '\n') :
    ((splitLines (x ++ '\n' :: (p ++ y))).any fun l => p.isPrefixOf l) = true := by
  rw [splitLines_append_newline, List.any_append,
      splitLines_append_no_newline p y hp]
  have : p.isPrefixOf (p ++ (splitLines y).headD []) = true := isPrefixOf_append_self _ _
  simp [this]

/-! Inversion lemmas for the validator. -/

theorem jsTrim_ne_empty_imp (s : String) (h : jsTrim s ≠ "") : s ≠ "" := by
  intro h0
  subst h0
  exact h rfl

theorem requiredStringMissing_false_iff (v : JSVal) :
    requiredStringMissing v = false ↔ ∃ s, v = .str s ∧ jsTrim s ≠ "" := by
  cases v <;>
    simp [requiredStringMissing, truthy, typeofStr, jsAsString]
  case str s =>
    exact fun h => jsTrim_ne_empty_imp s h

theorem jsIncludesStr_true_iff (l : List String) (v : JSVal) :
    jsIncludesStr l v = true ↔ ∃ s, v = .str s ∧ s ∈ l := by
  cases v <;> simp [jsIncludesStr]

theorem typeofStr_string_iff (v : JSVal) :
    (typeofStr v == "string") = true ↔ ∃ s, v = .str s := by
  cases v <;> simp [typeofStr]

theorem validateFormData_valid_quote (d : JSVal)
    (h : (validateFormData d).valid = true)
    (hft : getProp d "formType" = .str "quote") :
    ∃ N E P, getProp d "name" = .str N ∧ jsTrim N ≠ "" ∧
      getProp d "email" = .str E ∧ isValidEmail E = true ∧
      getProp d "product" = .str P ∧ P ∈ VALID_PRODUCTS := by
  rw [validateFormData, hft] at h
  split_ifs at h with h1 h2 h3 h4 h5 h6 h7 h8 h9 <;>
    try exact absurd h (by decide)
  case _ =>
    rw [Bool.not_eq_true] at h4 h5 h8 h9
    obtain ⟨N, hN, hNt⟩ := (requiredStringMissing_false_iff _).mp h4
    simp only [Bool.or_eq_false_iff, Bool.not_eq_false'] at h5
    obtain ⟨⟨het, hes⟩, hev⟩ := h5
    obtain ⟨E, hE⟩ := (typeofStr_string_iff _).mp hes
    rw [hE] at hev
    simp only [jsAsString] at hev
    have hq : strictEqStr (JSVal.str "quote") "quote" = true := by decide
    rw [Bool.and_eq_false_iff] at h8 h9
    rcases h8 with h8 | h8
    · exact absurd hq (by simp [h8])
    · obtain ⟨P, hP, hPt⟩ := (requiredStringMissing_false_iff _).mp h8
      rcases h9 with h9 | h9
      · exact absurd hq (by simp [h9])
      · rw [Bool.not_eq_false'] at h9
        obtain ⟨P2, hP2, hP2m⟩ := (jsIncludesStr_true_iff _ _).mp h9
        rw [hP] at hP2
        injection hP2 with hPP
        subst hPP
        exact ⟨N, E, P, hN, hNt, hE, hev, hP, hP2m⟩

/-! Lemmas about property deletion. -/

theorem truthy_delProp (d : JSVal) (k : String) : truthy (delProp d k) = truthy d := by
  cases d <;> rfl

theorem typeofStr_delProp (d : JSVal) (k : String) : typeofStr (delProp d k) = typeofStr d := by
  cases d <;> rfl

theorem lookup_filter_self (k : String) (fields : List (String × JSVal)) :
    (fields.filter fun p => p.1 != k).lookup k = none := by
  induction fields with
  | nil => rfl
  | cons p rest ih =>
      obtain ⟨a, b⟩ := p
      by_cases hak : a = k
      · subst hak
        simpa using ih
      · have h1 : (a != k) = true := by simp [hak]
        have h2 : (k == a) = false := by
          simp [bne, beq_eq_false_iff_ne]
          exact fun hh => hak hh.symm
        simp [List.filter_cons, h1, List.lookup, h2, ih]

theorem getProp_delProp_self (d : JSVal) (k : String) :
    getProp (delProp d k) k = .undefined := by
  cases d <;> try rfl
  case obj fields =>
    simp [delProp, getProp, lookup_filter_self]

theorem getProp_delProp_ne (d : JSVal) (k k2 : String) (hne : k2 ≠ k) :
    getProp (delProp d k) k2 = getProp d k2 := by
  cases d <;> try rfl
  case obj fields =>
    simp only [delProp, getProp]
    induction fields with
    | nil => rfl
    | cons p rest ih =>
        obtain ⟨a, b⟩ := p
        by_cases hak : a = k
        · subst hak
          have h2 : (k2 == a) = false := by
            simp [beq_eq_false_iff_ne]
            exact hne
          simp [List.filter_cons, List.lookup, h2, ih]
        · have h1 : (a != k) = true := by simp [hak]
          by_cases hk2a : k2 = a
          · subst hk2a
            simp [List.filter_cons, h1, List.lookup]
          · have h2 : (k2 == a) = false := by
              simp [beq_eq_false_iff_ne]
              exact hk2a
            simp [List.filter_cons, h1, List.lookup, h2, ih]

theorem validateFormData_error_ne_empty (d : JSVal) (e : String)
    (h : validateFormData d = { valid := false, error := some e }) : e ≠ "" := by
  rw [validateFormData] at h
  split_ifs at h <;> simp_all <;> (subst h; decide)

/-! The claim theorems. -/

/-- Claim C4: email validation accepts a string exactly when it matches
the pattern of one or more non-whitespace non-at characters, an at sign,
one or more such characters, a dot, and one or more such characters; in
particular a\@b.com is accepted while a\@b and a b\@c.com are rejected. -/
theorem claim_C4_email_pattern :
    (∀ s : String, isValidEmail s = true ↔ emailPatternSpec s) ∧
    isValidEmail "a@b.com" = true ∧
    isValidEmail "a@b" = false ∧
    isValidEmail "a b@c.com" = false :=
  ⟨isValidEmail_iff, by decide, by decide, by decide⟩

/-- Witness for claim C4: the accepted example satisfies the spec
pattern. -/
theorem claim_C4_email_pattern_witness : emailPatternSpec "a@b.com" :=
  (claim_C4_email_pattern.1 "a@b.com").mp (by decide)

/-- Claim C9: a JSON array payload is a non-null object value, so it
passes the first validation rule and is rejected by the next applicable
rule with the formType-is-required error, for every array. -/
theorem claim_C9_array_payload (xs : List JSVal) :
    truthy (.arr xs) = true ∧ typeofStr (.arr xs) = "object" ∧
    validateFormData (.arr xs) = { valid := false, error := some "formType is required" } :=
  ⟨rfl, rfl, rfl⟩

/-- Claim C8: the CORS header computation echoes an allow-listed origin,
falls back to the canonical production origin for other origins in
production mode and to the wildcard otherwise, and always attaches the
fixed methods, headers and max-age entries; stated as equality with the
specification-worded computation. -/
theorem claim_C8_cors_headers (origin : Option String) (isProduction : Bool) :
    getCorsHeaders origin isProduction = specCorsHeaders origin isProduction := by
  cases origin with
  | none => rfl
  | some o =>
      unfold getCorsHeaders specCorsHeaders
      by_cases h : o ∈ ["http://localhost:3000", "https://caduae.com", "https://www.caduae.com"]
      · have hc : (["http://localhost:3000", "https://caduae.com",
            "https://www.caduae.com"].contains o) = true := List.elem_iff.mpr h
        have ho : (o != "") = true := by
          have h2 := h
          simp only [List.mem_cons, List.not_mem_nil, or_false] at h2
          rcases h2 with rfl | rfl | rfl <;> decide
        simp [hc, ho, h]
      · have hc : (["http://localhost:3000", "https://caduae.com",
            "https://www.caduae.com"].contains o) = false := by
          rw [Bool.eq_false_iff]
          intro hx
          exact h (List.elem_iff.mp hx)
        simp [h, hc]

/-- Claim C7: on the example contact submission from Jane the composed
subject is exactly the contact subject with her name, the HTML body
carries the message with its newline replaced by a br tag, and the text
body keeps the newline verbatim with no br tag anywhere. -/
theorem claim_C7_contact_formatting :
    (formatEmailContent contactJane).subject = "New Contact Form Submission - Jane" ∧
    (formatEmailContent contactJane).html =
      "\n      <h2>New Contact Form Submission</h2>\n      <p><strong>Name:</strong> Jane</p>\n      <p><strong>Email:</strong> jane@x.com</p>\n      <p><strong>Phone:</strong> 123</p>\n      <p><strong>Message:</strong></p>\n      <p>Hi<br>There</p>\n    " ∧
    (formatEmailContent contactJane).text =
      "\nNew Contact Form Submission\n\nName: Jane\nEmail: jane@x.com\nPhone: 123\nMessage: Hi\nThere\n    " ∧
    containsSubstring "Hi<br>There" (formatEmailContent contactJane).html = true ∧
    containsSubstring "Hi\nThere" (formatEmailContent contactJane).text = true ∧
    containsSubstring "<br>" (formatEmailContent contactJane).text = false :=
  ⟨by decide, by decide, by decide, by decide, by decide, by decide⟩

/-- Claim C2: when the body parses and validates but the relay call
fails, the handler answers 500 with an error body whose message is the
message of the thrown Error instance when the exception is one, and the
generic fallback sentence for any other thrown value; the exception is
absorbed, never propagated. -/
theorem claim_C2_relay_failure (origin : Option String) (isProduction : Bool)
    (d : JSVal) (e : JsException)
    (h : (validateFormData d).valid = true) :
    (POST origin isProduction (.ok d) (.error e)).1.status = 500 ∧
    (POST origin isProduction (.ok d) (.error e)).1.body.status = "error" ∧
    (POST origin isProduction (.ok d) (.error e)).1.body.message = jsErrorMessage e ∧
    (∀ m, e = .errorInstance m →
      (POST origin isProduction (.ok d) (.error e)).1.body.message = m) ∧
    (∀ v, e = .otherValue v →
      (POST origin isProduction (.ok d) (.error e)).1.body.message =
        "An error occurred while sending your message. Please try again later.") := by
  have hv : (!(validateFormData d).valid) = false := by rw [h]; rfl
  unfold POST
  simp only [hv, Bool.false_eq_true, if_false]
  refine ⟨trivial, trivial, trivial, ?_, ?_⟩
  · rintro m rfl
    rfl
  · rintro v rfl
    rfl

/-- Claim C3: when validation fails, the handler answers 400 with the
specific error of the first failed rule as its message, and the relay is
never invoked. -/
theorem claim_C3_validation_failure (origin : Option String) (isProduction : Bool)
    (relayResult : Except JsException Unit) (d : JSVal) (e : String)
    (h : validateFormData d = { valid := false, error := some e }) :
    (POST origin isProduction (.ok d) relayResult).1.status = 400 ∧
    (POST origin isProduction (.ok d) relayResult).1.body =
      { status := "error", message := e } ∧
    (POST origin isProduction (.ok d) relayResult).2 = [] := by
  have hne : e ≠ "" := validateFormData_error_ne_empty d e h
  have hne2 : (e == "") = false := by
    rw [Bool.eq_false_iff]
    intro hx
    exact hne (by simpa using hx)
  unfold POST
  simp only [h]
  simp [jsOrString, hne2]

/-- Claim C5: on a payload that validates, the handler performs exactly
one relay invocation with the composed content, answers 200 with the
fixed thank-you success body when that single awaited call succeeds, and
produces a success body only when the relay call succeeded. -/
theorem claim_C5_success_after_relay (origin : Option String) (isProduction : Bool)
    (d : JSVal) (h : (validateFormData d).valid = true) :
    (POST origin isProduction (.ok d) (.ok ())).1.status = 200 ∧
    (POST origin isProduction (.ok d) (.ok ())).1.body =
      { status := "success", message := "Thank you! Your message has been sent successfully." } ∧
    (POST origin isProduction (.ok d) (.ok ())).2 = [sendMailArgsFor d] ∧
    (POST origin isProduction (.ok d) (.ok ())).2.length = 1 ∧
    (∀ relayResult, (POST origin isProduction (.ok d) relayResult).1.body.status = "success" →
      relayResult = .ok ()) := by
  have hv : (!(validateFormData d).valid) = false := by rw [h]; rfl
  unfold POST
  simp only [hv, Bool.false_eq_true, if_false]
  refine ⟨trivial, trivial, trivial, rfl, ?_⟩
  intro r hr
  cases r with
  | ok u => cases u; rfl
  | error err => exact absurd hr (by simp)

/-- Claim C10: a quote payload whose mobile field holds the empty string
is treated exactly as one with no mobile field: the value is falsy, the
validator never inspects it so validation is unchanged by deleting it,
and the composed email, in both bodies, is identical to the one composed
without the field. -/
theorem claim_C10_empty_mobile (d : JSVal) (h : getProp d "mobile" = .str "") :
    truthy (getProp d "mobile") = false ∧
    getProp (delProp d "mobile") "mobile" = .undefined ∧
    validateFormData (delProp d "mobile") = validateFormData d ∧
    formatEmailContent (delProp d "mobile") = formatEmailContent d := by
  refine ⟨by rw [h]; rfl, getProp_delProp_self d "mobile", ?_, ?_⟩
  · unfold validateFormData
    rw [truthy_delProp, typeofStr_delProp,
        getProp_delProp_ne d "mobile" "formType" (by decide),
        getProp_delProp_ne d "mobile" "name" (by decide),
        getProp_delProp_ne d "mobile" "email" (by decide),
        getProp_delProp_ne d "mobile" "phone" (by decide),
        getProp_delProp_ne d "mobile" "message" (by decide),
        getProp_delProp_ne d "mobile" "product" (by decide)]
  · unfold formatEmailContent
    rw [getProp_delProp_ne d "mobile" "formType" (by decide),
        getProp_delProp_ne d "mobile" "name" (by decide),
        getProp_delProp_ne d "mobile" "email" (by decide),
        getProp_delProp_ne d "mobile" "phone" (by decide),
        getProp_delProp_ne d "mobile" "message" (by decide),
        getProp_delProp_ne d "mobile" "product" (by decide),
        getProp_delProp_self d "mobile", h]
    simp [truthy]

/-- Witness for claim C2 at a concrete valid quote submission: an Error
with a message yields that message, a thrown non-Error value yields the
generic fallback sentence. -/
theorem claim_C2_relay_failure_witness :
    (POST (some "https://caduae.com") true (.ok quotePlain)
      (.error (.errorInstance "SMTP connect failed"))).1.status = 500 ∧
    (POST (some "https://caduae.com") true (.ok quotePlain)
      (.error (.errorInstance "SMTP connect failed"))).1.body.message = "SMTP connect failed" ∧
    (POST none false (.ok quotePlain) (.error (.otherValue .null))).1.body.message =
      "An error occurred while sending your message. Please try again later." :=
  ⟨(claim_C2_relay_failure (some "https://caduae.com") true quotePlain
      (.errorInstance "SMTP connect failed") (by decide)).1,
   (claim_C2_relay_failure (some "https://caduae.com") true quotePlain
      (.errorInstance "SMTP connect failed") (by decide)).2.2.2.1 "SMTP connect failed" rfl,
   (claim_C2_relay_failure none false quotePlain
      (.otherValue .null) (by decide)).2.2.2.2 JSVal.null rfl⟩

/-- Witness for claim C3 at the empty-object payload: 400 response with
the formType-is-required message and no relay invocation. -/
theorem claim_C3_validation_failure_witness :
    (POST none false (.ok emptyObjectPayload) (.ok ())).1.status = 400 ∧
    (POST none false (.ok emptyObjectPayload) (.ok ())).1.body =
      { status := "error", message := "formType is required" } ∧
    (POST none false (.ok emptyObjectPayload) (.ok ())).2 = [] :=
  claim_C3_validation_failure none false (.ok ()) emptyObjectPayload
    "formType is required" (by decide)

/-- Witness for claim C5 at the valid contact submission from Jane: a 200
status and exactly one relay invocation. -/
theorem claim_C5_success_after_relay_witness :
    (POST none false (.ok contactJane) (.ok ())).1.status = 200 ∧
    (POST none false (.ok contactJane) (.ok ())).2.length = 1 :=
  ⟨(claim_C5_success_after_relay none false contactJane (by decide)).1,
   (claim_C5_success_after_relay none false contactJane (by decide)).2.2.2.1⟩

/-- Witness for claim C10 at a concrete quote payload whose mobile field
is the empty string. -/
theorem claim_C10_empty_mobile_witness :
    truthy (getProp quoteEmptyMobileB "mobile") = false ∧
    validateFormData (delProp quoteEmptyMobileB "mobile") = validateFormData quoteEmptyMobileB ∧
    formatEmailContent (delProp quoteEmptyMobileB "mobile") = formatEmailContent quoteEmptyMobileB :=
  ⟨(claim_C10_empty_mobile quoteEmptyMobileB rfl).1,
   (claim_C10_empty_mobile quoteEmptyMobileB rfl).2.2.1,
   (claim_C10_empty_mobile quoteEmptyMobileB rfl).2.2.2⟩

/-- Claim C1: the validator applies the rules in the fixed order stated
by the specification, non-null object first, then formType presence and
membership, then name, then email, then the formType-specific checks, and
returns the error of the first rule that fails, never reporting a later
rule: it equals the first-failure fold over the ordered rule list, for
every input value. -/
theorem claim_C1_first_failure (d : JSVal) :
    validateFormData d = firstError (orderedRules d) := by
  unfold validateFormData orderedRules
  cases h1 : truthy d
  · simp [firstError]
  · cases h2 : typeofStr d == "object"
    · simp [firstError]
    · cases h3 : truthy (getProp d "formType")
      · simp [firstError]
      · cases h4 : jsIncludesStr ["contact", "support", "quote"] (getProp d "formType")
        · simp [firstError]
        · cases h5 : requiredStringMissing (getProp d "name")
          · cases h6a : truthy (getProp d "email")
            · simp [firstError]
            · cases h6b : typeofStr (getProp d "email") == "string"
              · simp [firstError]
              · cases h6c : isValidEmail (jsAsString (getProp d "email"))
                · simp [firstError]
                · cases hcs : (strictEqStr (getProp d "formType") "contact"
                      || strictEqStr (getProp d "formType") "support")
                  · cases hq : strictEqStr (getProp d "formType") "quote"
                    · simp [firstError]
                    · cases h8 : requiredStringMissing (getProp d "product")
                      · cases h9 : jsIncludesStr VALID_PRODUCTS (getProp d "product")
                        · simp [firstError]
                        · simp [firstError]
                      · simp [firstError]
                  · cases h6 : requiredStringMissing (getProp d "phone")
                    · cases h7 : requiredStringMissing (getProp d "message")
                      · cases hq : strictEqStr (getProp d "formType") "quote"
                        · simp [firstError]
                        · cases h8 : requiredStringMissing (getProp d "product")
                          · cases h9 : jsIncludesStr VALID_PRODUCTS (getProp d "product")
                            · simp [firstError]
                            · simp [firstError]
                          · simp [firstError]
                      · simp [firstError]
                    · simp [firstError]
          · simp [firstError]

/-- Coercion of a string value is the string itself. -/
theorem jsToString_str (s : String) : jsToString (JSVal.str s) = s := rfl

/-- Merging two no-newline facts across an append. -/
theorem no_newline_append (a b : List Char) (ha : ∀ c ∈ a, c ≠ '\n')
    (hb : ∀ c ∈ b, c ≠ '\n') : ∀ c ∈ a ++ b, c ≠ '\n' :=
  fun c hc => (List.mem_append.mp hc).elim (ha c) (hb c)

/-- On a quote-typed payload the formatter takes the quote branch. -/
theorem formatEmailContent_quote (d : JSVal)
    (hft : getProp d "formType" = .str "quote") :
    formatEmailContent d =
    { subject := "New Quote Request - " ++ jsToString (getProp d "name")
        ++ " - " ++ jsToString (getProp d "product")
      html := "\n      <h2>New Quote Request</h2>\n      <p><strong>Name:</strong> "
        ++ jsToString (getProp d "name")
        ++ "</p>\n      <p><strong>Email:</strong> "
        ++ jsToString (getProp d "email")
        ++ "</p>\n      "
        ++ (if truthy (getProp d "mobile") then
              "<p><strong>Mobile:</strong> " ++ jsToString (getProp d "mobile") ++ "</p>"
            else "")
        ++ "\n      <p><strong>Product:</strong> "
        ++ jsToString (getProp d "product")
        ++ "</p>\n    "
      text := "\nNew Quote Request\n\nName: "
        ++ jsToString (getProp d "name")
        ++ "\nEmail: " ++ jsToString (getProp d "email")
        ++ "\n"
        ++ (if truthy (getProp d "mobile") then
              "Mobile: " ++ jsToString (getProp d "mobile") ++ "\n"
            else "")
        ++ "Product: " ++ jsToString (getProp d "product")
        ++ "\n    " } := by
  have c1 : strictEqStr (JSVal.str "quote") "contact" = false := rfl
  have c2 : strictEqStr (JSVal.str "quote") "support" = false := rfl
  have c3 : strictEqStr (JSVal.str "quote") "quote" = true := rfl
  unfold formatEmailContent
  rw [hft]
  simp [c1, c2, c3]

/-- The line decomposition of the quote text template without a mobile
segment, for newline-free interpolated values. -/
theorem quote_text_lines_no_mobile (n e p : List Char)
    (hn : ∀ c ∈ n, c ≠ '\n') (he : ∀ c ∈ e, c ≠ '\n') (hp : ∀ c ∈ p, c ≠ '\n') :
    splitLines ('\n' :: ("New Quote Request".data ++ '\n' :: '\n' ::
      ("Name: ".data ++ n ++ '\n' :: ("Email: ".data ++ e ++ '\n' ::
        ("Product: ".data ++ p ++ '\n' :: "    ".data))))) =
    [[], "New Quote Request".data, [], "Name: ".data ++ n,
     "Email: ".data ++ e, "Product: ".data ++ p, "    ".data] := by
  rw [splitLines_cons_newline,
      splitLines_seg "New Quote Request".data _ (by decide),
      splitLines_cons_newline,
      splitLines_seg ("Name: ".data ++ n) _
        (no_newline_append _ _ (by decide) hn),
      splitLines_seg ("Email: ".data ++ e) _
        (no_newline_append _ _ (by decide) he),
      splitLines_seg ("Product: ".data ++ p) _
        (no_newline_append _ _ (by decide) hp),
      splitLines_no_newline "    ".data (by decide)]

/-- Counterexample to claim C6 as stated.  First part: a valid quote
submission with no mobile field whose name embeds a line starting with
the Mobile label still produces a text body with such a line.  Second
part: a valid quote submission whose mobile field is present but holds
the empty string produces a text body with no such line. -/
theorem claim_C6_counterexample :
    (validateFormData quoteNameInjection = { valid := true, error := none } ∧
      getProp quoteNameInjection "mobile" = .undefined ∧
      hasLineStartingWith "Mobile:" (formatEmailContent quoteNameInjection).text = true) ∧
    (validateFormData quoteEmptyMobile = { valid := true, error := none } ∧
      getProp quoteEmptyMobile "mobile" = .str "" ∧
      hasLineStartingWith "Mobile:" (formatEmailContent quoteEmptyMobile).text = false) :=
  ⟨⟨by decide, rfl, by decide⟩, ⟨by decide, rfl, by decide⟩⟩

/-- Claim C6 as amended: for every valid quote submission, when the
mobile field is absent and the interpolated name contains no newline the
composed text body has no line starting with the Mobile label, and when
the mobile field is truthy, in particular any non-empty string, the text
body has such a line. -/
theorem claim_C6_amended (d : JSVal)
    (hv : (validateFormData d).valid = true)
    (hft : getProp d "formType" = .str "quote") :
    (getProp d "mobile" = .undefined →
      (∀ ch ∈ (jsToString (getProp d "name")).data, ch ≠ '\n') →
      hasLineStartingWith "Mobile:" (formatEmailContent d).text = false) ∧
    (truthy (getProp d "mobile") = true →
      hasLineStartingWith "Mobile:" (formatEmailContent d).text = true) := by
  obtain ⟨N, E, P, hN, hNt, hE, hEv, hP, hPm⟩ := validateFormData_valid_quote d hv hft
  have hEnl : ∀ ch ∈ E.data, ch ≠ '\n' := email_no_newline E hEv
  have hPnl : ∀ ch ∈ P.data, ch ≠ '\n' := by
    simp only [VALID_PRODUCTS, List.mem_cons, List.not_mem_nil, or_false] at hPm
    rcases hPm with rfl | rfl | rfl | rfl <;> decide
  have hfmt := formatEmailContent_quote d hft
  constructor
  · intro hm hnm
    rw [hN, jsToString_str] at hnm
    have hmt : truthy (getProp d "mobile") = false := by rw [hm]; rfl
    rw [hfmt]
    rw [hasLineStartingWith]
    have hdata : ("\nNew Quote Request\n\nName: "
        ++ jsToString (getProp d "name")
        ++ "\nEmail: " ++ jsToString (getProp d "email")
        ++ "\n"
        ++ (if truthy (getProp d "mobile") then
              "Mobile: " ++ jsToString (getProp d "mobile") ++ "\n"
            else "")
        ++ "Product: " ++ jsToString (getProp d "product")
        ++ "\n    ").data =
        '\n' :: ("New Quote Request".data ++ '\n' :: '\n' ::
          ("Name: ".data ++ N.data ++ '\n' :: ("Email: ".data ++ E.data ++ '\n' ::
            ("Product: ".data ++ P.data ++ '\n' :: "    ".data)))) := by
      rw [hN, hE, hP, jsToString_str, jsToString_str, jsToString_str, hmt]
      simp [String.data_append, List.append_assoc]
    rw [hdata, quote_text_lines_no_mobile N.data E.data P.data hnm hEnl hPnl]
    rfl
  · intro hm
    rw [hfmt]
    rw [hasLineStartingWith]
    have hdata2 : ("\nNew Quote Request\n\nName: "
        ++ jsToString (getProp d "name")
        ++ "\nEmail: " ++ jsToString (getProp d "email")
        ++ "\n"
        ++ (if truthy (getProp d "mobile") then
              "Mobile: " ++ jsToString (getProp d "mobile") ++ "\n"
            else "")
        ++ "Product: " ++ jsToString (getProp d "product")
        ++ "\n    ").data =
        ('\n' :: ("New Quote Request".data ++ '\n' :: '\n' ::
          ("Name: ".data ++ (jsToString (getProp d "name")).data ++ '\n' ::
            ("Email: ".data ++ (jsToString (getProp d "email")).data)))) ++
        '\n' :: (("Mobile:" : String).data ++
          (' ' :: ((jsToString (getProp d "mobile")).data ++ '\n' ::
            ("Product: ".data ++ (jsToString (getProp d "product")).data ++
              '\n' :: "    ".data)))) := by
      rw [hm]
      simp [String.data_append, List.append_assoc]
    rw [hdata2]
    exact anyLine_of_split ("Mobile:" : String).data _ _ (by decide)

/-- Witness for the amended claim C6 at two concrete valid quote
submissions: one without a mobile field and a plain name, one with a
non-empty mobile value. -/
theorem claim_C6_amended_witness :
    hasLineStartingWith "Mobile:" (formatEmailContent quotePlain).text = false ∧
    hasLineStartingWith "Mobile:" (formatEmailContent quoteWithMobile).text = true :=
  ⟨(claim_C6_amended quotePlain (by decide) rfl).1 rfl (by decide),
   (claim_C6_amended quoteWithMobile (by decide) rfl).2 (by decide)⟩
